import Mathlib

/-!
Verification of the parkit-web reservation modal and map synchronization
logic.  The definitions below are shallow embeddings of the TypeScript
source: the reservation modal's slot selection, pricing and submission
logic (`ReserveSpotModal`), and the map page's debounced bounds handler
and cancellable nearby-places fetch.
-/

namespace Parkit

/-- A `FeatureSelection`: the `selectedFeatures` state of the modal
(`{ covered: boolean, charging: boolean }`). -/
structure FeatureSelection where
  covered : Bool
  charging : Bool
deriving DecidableEq, Repr

/-- The `TimeSlot` interface of the reservation modal.  Availability
counts are JavaScript numbers, embedded as integers. -/
structure TimeSlot where
  startTime : String
  endTime : String
  hour : Int
  timeLabel : String
  availableSpots : Int
  totalSpots : Int
  isAvailable : Bool
  isPast : Bool
  basicAvailable : Int
  coveredAvailable : Int
  chargingAvailable : Int
  coveredAndChargingAvailable : Int
deriving DecidableEq, Repr

/-- The `PricingInfo` interface of the reservation modal.  Rates are
JavaScript numbers, embedded as rationals. -/
structure PricingInfo where
  hourlyRate : ℚ
  dailyRate : ℚ
  coveredHourlyRate : ℚ
  coveredDailyRate : ℚ
  chargingHourlyRate : ℚ
  chargingDailyRate : ℚ
deriving DecidableEq, Repr

/-- The feature-availability guard of `handleSlotClick`: the
`isFeatureAvailable` local computed from the selected features and the
clicked slot's availability counts. -/
def isFeatureAvailable (features : FeatureSelection) (slot : TimeSlot) : Bool :=
  if features.covered && features.charging then
    decide (slot.coveredAndChargingAvailable > 0)
  else if features.covered then
    decide (slot.coveredAvailable > 0) || decide (slot.coveredAndChargingAvailable > 0)
  else if features.charging then
    decide (slot.chargingAvailable > 0) || decide (slot.coveredAndChargingAvailable > 0)
  else
    decide (slot.basicAvailable > 0) || decide (slot.coveredAvailable > 0) ||
      decide (slot.chargingAvailable > 0) || decide (slot.coveredAndChargingAvailable > 0)

/-- The selectability test of `handleSlotClick`: the click is acted on
iff the slot is not past (`if (!slot || slot.isPast) return`) and the
feature-availability guard passes (`if (!isFeatureAvailable) return`). -/
def isSlotSelectable (slot : TimeSlot) (features : FeatureSelection) : Bool :=
  !slot.isPast && isFeatureAvailable features slot

/-- `getAvailableCountForFeatures` of the reservation modal: the number
of spots usable under the selected features. -/
def getAvailableCountForFeatures (features : FeatureSelection) (slot : TimeSlot) : Int :=
  if features.covered && features.charging then
    slot.coveredAndChargingAvailable
  else if features.covered then
    slot.coveredAvailable + slot.coveredAndChargingAvailable
  else if features.charging then
    slot.chargingAvailable + slot.coveredAndChargingAvailable
  else
    slot.basicAvailable + slot.coveredAvailable + slot.chargingAvailable +
      slot.coveredAndChargingAvailable

/-- `calculateTotalPrice` of the reservation modal: the base hourly rate
plus feature surcharges, multiplied by the number of selected slots. -/
def calculateTotalPrice (selectedSlots : List Int) (features : FeatureSelection)
    (pricing : PricingInfo) : ℚ :=
  let basePrice := pricing.hourlyRate +
    (if features.covered then pricing.coveredHourlyRate else 0) +
    (if features.charging then pricing.chargingHourlyRate else 0)
  (selectedSlots.length : ℚ) * basePrice

/-- `getHourlyRate` of the reservation modal: the per-hour rate shown to
the user, the base rate plus the selected feature surcharges. -/
def getHourlyRate (features : FeatureSelection) (pricing : PricingInfo) : ℚ :=
  let rate := pricing.hourlyRate
  let rate := if features.covered then rate + pricing.coveredHourlyRate else rate
  let rate := if features.charging then rate + pricing.chargingHourlyRate else rate
  rate

/-- The functional updater passed to `setSelectedSlots` by
`handleSlotClick`: if the hour is already selected it is removed
(`prev.filter((h) => h !== hour)`), otherwise it is appended and the
result re-sorted ascending (`[...prev, hour].sort((a, b) => a - b)`). -/
def toggleHour (prev : List Int) (hour : Int) : List Int :=
  if prev.contains hour then
    prev.filter (fun h => h != hour)
  else
    List.insertionSort (· ≤ ·) (prev ++ [hour])

/-- `handleSlotClick` of the reservation modal: looks up the clicked
hour among the loaded time slots, ignores the click when the slot is
missing, past, or unavailable under the selected features, and
otherwise toggles the hour in the selection. -/
def handleSlotClick (timeSlots : List TimeSlot) (features : FeatureSelection)
    (selectedSlots : List Int) (hour : Int) : List Int :=
  match timeSlots.find? (fun s => s.hour == hour) with
  | none => selectedSlots
  | some slot =>
    if slot.isPast then selectedSlots
    else if !(isFeatureAvailable features slot) then selectedSlots
    else toggleHour selectedSlots hour

/-- Whether a click on `hour` passes all the early-return guards of
`handleSlotClick`: a slot with that hour exists, is not past, and is
available under the selected features. -/
def isHourSelectable (timeSlots : List TimeSlot) (features : FeatureSelection)
    (hour : Int) : Bool :=
  match timeSlots.find? (fun s => s.hour == hour) with
  | none => false
  | some slot => !slot.isPast && isFeatureAvailable features slot

/-- A loaded slot list with a single fully available slot at hour 9, used
to instantiate concrete slot-click scenarios. -/
def sampleSlots : List TimeSlot :=
  [⟨"2025-01-01T09:00", "2025-01-01T10:00", 9, "9 AM", 1, 1, true, false, 1, 0, 0, 0⟩]

/-- The interval computation of `handleSubmit`: sort the selected hours
ascending, take the first as the start hour and the last plus one as the
end hour.  An empty selection never reaches this computation (it is
rejected earlier), embedded here as `none`. -/
def buildBookingInterval (selectedSlots : List Int) : Option (Int × Int) :=
  match List.insertionSort (· ≤ ·) selectedSlots with
  | [] => none
  | h :: t => some (h, t.getLastD h + 1)

/-- A map-viewport region as delivered to `handleBoundsChange`:
north-east and south-west corners, coordinates embedded as rationals. -/
structure GeoRegion where
  neLat : ℚ
  neLng : ℚ
  swLat : ℚ
  swLng : ℚ
deriving DecidableEq, Repr

/-- State of the debounced bounds pipeline: `pending` is the timer held
in `debounceTimerRef` (its fire time together with the region captured by
the scheduled callback), and `issued` lists the nearby queries sent so
far, each identified by the region it was computed from. -/
structure DebounceState where
  pending : Option (Nat × GeoRegion)
  issued : List GeoRegion
deriving DecidableEq, Repr

/-- The idle pipeline: no pending timer, no query issued yet. -/
def idleDebounce : DebounceState := ⟨none, []⟩

/-- Timer semantics: a pending timer whose fire time has been reached by
`now` has already fired, issuing the nearby query computed from its
captured region. -/
def fireIfDue (now : Nat) (s : DebounceState) : DebounceState :=
  match s.pending with
  | some (ft, r) => if ft ≤ now then ⟨none, s.issued ++ [r]⟩ else s
  | none => s

/-- `handleBoundsChange` invoked at time `t` with region `r`: any timer
already due fired beforehand; a still-pending timer is cancelled
(`clearTimeout(debounceTimerRef.current)`) and a fresh 500 ms timer
capturing `r` is installed (`setTimeout(..., 500)`). -/
def handleBoundsChange (t : Nat) (r : GeoRegion) (s : DebounceState) : DebounceState :=
  let s' := fireIfDue t s
  ⟨some (t + 500, r), s'.issued⟩

/-- A sequence of timestamped `handleBoundsChange` invocations, applied
in order. -/
def runBounds (events : List (Nat × GeoRegion)) (s : DebounceState) : DebounceState :=
  events.foldl (fun st e => handleBoundsChange e.1 e.2 st) s

/-- After the last invocation, enough time passes for the remaining
timer (if any) to fire. -/
def flushDebounce (s : DebounceState) : DebounceState :=
  match s.pending with
  | some (_, r) => ⟨none, s.issued ++ [r]⟩
  | none => s

/-- State of `fetchNearbyPlaces`: `nextId` numbers the
`AbortController`s created so far, `current` is `abortControllerRef`
(the controller of the in-flight request, if any), `aborted` records
every controller that has been aborted, and `places` is the last value
written by `setPlaces` (payloads embedded as lists of place numbers). -/
structure FetchState where
  nextId : Nat
  current : Option Nat
  aborted : List Nat
  places : Option (List Nat)
deriving DecidableEq, Repr

/-- The state before any nearby query has been issued. -/
def initialFetchState : FetchState := ⟨0, none, [], none⟩

/-- Calling `fetchNearbyPlaces`: the previous controller, if still
referenced, is aborted (`abortControllerRef.current.abort()`), then a
fresh `AbortController` is created and the request is sent under it. -/
def issueFetch (s : FetchState) : FetchState :=
  { nextId := s.nextId + 1
    current := some s.nextId
    aborted := match s.current with
      | some c => c :: s.aborted
      | none => s.aborted
    places := s.places }

/-- Resolution of the request sent under controller `id` with payload
`data`: when the controller was aborted, axios rejects with a cancel
error and the catch branch silently ignores it (`axios.isCancel`);
otherwise `setPlaces` stores the mapped payload. -/
def resolveFetch (id : Nat) (data : List Nat) (s : FetchState) : FetchState :=
  if id ∈ s.aborted then s else { s with places := some data }

/-- How the catch branch classifies the outcome of the request of
controller `id`: `true` means a cancellation (logged and ignored, a
non-error), `false` a genuine failure (reported via `console.error`). -/
def isCancelledFetch (s : FetchState) (id : Nat) : Bool :=
  decide (id ∈ s.aborted)

/-- The reachable-state invariant of the fetch machinery: only
controllers already created can appear as aborted or current. -/
def fetchInvariantHolds (s : FetchState) : Bool :=
  s.aborted.all (fun i => decide (i < s.nextId)) &&
    (match s.current with
     | some c => decide (c < s.nextId)
     | none => true)

/-- The marker-diffing step of the `MapView` markers effect: the incoming
marker ids that are absent from `previousMarkerIdsRef`
(`[...currentMarkerIds].filter((id) => !previousMarkerIdsRef.current.has(id))`). -/
def newMarkerIds (previousIds currentIds : List String) : List String :=
  currentIds.filter (fun id => !previousIds.contains id)

/-- Whether the marker with identifier `id` receives the staggered
`markerPopIn` entrance animation on a render with the given previous and
current id sets (`newMarkerIds.has(markerData.id)`). -/
def isNewMarker (previousIds currentIds : List String) (id : String) : Bool :=
  (newMarkerIds previousIds currentIds).contains id

/-- The slot-related state of the reservation modal: the chosen date and
features, the loaded slots, the hour selection, the loading flag and the
error message.  (The pricing and feature-count states written by the same
fetch are independent of the selection and omitted.) -/
structure ModalState where
  selectedDate : String
  features : FeatureSelection
  timeSlots : List TimeSlot
  selectedSlots : List Int
  loadingSlots : Bool
  error : String
deriving DecidableEq, Repr

/-- The events that touch the modal's slot selection. -/
inductive ModalEvent where
  | changeDate (d : String)
  | setCovered (b : Bool)
  | setCharging (b : Bool)
  | slotsLoaded (slots : List TimeSlot)
  | slotsFailed
  | click (hour : Int)
deriving DecidableEq, Repr

/-- One step of the modal, from the source handlers: selecting a date
stores it and starts the slot fetch (`setLoadingSlots(true)`); either
feature checkbox stores the new features and clears the selection
(`setSelectedSlots([])`); a successful fetch stores the new slots and
clears the selection; a failed fetch surfaces an error and keeps slots
and selection; a slot click runs `handleSlotClick`. -/
def modalStep : ModalEvent → ModalState → ModalState
  | .changeDate d, s => { s with selectedDate := d, loadingSlots := true }
  | .setCovered b, s =>
      { s with features := ⟨b, s.features.charging⟩, selectedSlots := [] }
  | .setCharging b, s =>
      { s with features := ⟨s.features.covered, b⟩, selectedSlots := [] }
  | .slotsLoaded slots, s =>
      { s with timeSlots := slots, selectedSlots := [], loadingSlots := false }
  | .slotsFailed, s =>
      { s with error := "Failed to load available time slots", loadingSlots := false }
  | .click h, s =>
      { s with selectedSlots := handleSlotClick s.timeSlots s.features s.selectedSlots h }

/-- A modal state with the sample slots loaded and hour 9 selected. -/
def sampleModalState : ModalState :=
  ⟨"2025-01-01", ⟨false, false⟩, sampleSlots, [9], false, ""⟩

/-- The outcome of the modal's booking request as seen by
`handleSubmit`'s try/catch: a 201 creation, or a failure whose
`response.data.error` body may be absent. -/
inductive BookingNetResult where
  | created
  | failedWith (body : Option String)
deriving DecidableEq, Repr

/-- The observable outcome of one `handleSubmit` run: the error message
set (empty if none), the number of network requests performed, and
whether the booking succeeded. -/
structure SubmitResult where
  error : String
  requestsMade : Nat
  success : Bool
deriving DecidableEq, Repr

/-- `handleSubmit` of the reservation modal: an unselected vehicle
(`!formData.vehicleId`), an empty slot selection, or a missing session
token each block the submission locally before any request is made;
otherwise the booking request is posted once, and on failure the
structured backend error body is surfaced when truthy, else the generic
message, with no retry. -/
def submitBooking (vehicleId : String) (selectedSlots : List Int) (hasToken : Bool)
    (net : BookingNetResult) : SubmitResult :=
  if vehicleId = "" then ⟨"Please select a vehicle", 0, false⟩
  else if selectedSlots.length = 0 then ⟨"Please select at least one time slot", 0, false⟩
  else if !hasToken then ⟨"Authentication required. Please sign in again.", 0, false⟩
  else match net with
    | .created => ⟨"", 1, true⟩
    | .failedWith (some body) =>
        if body ≠ "" then ⟨body, 1, false⟩ else ⟨"Failed to create booking", 1, false⟩
    | .failedWith none => ⟨"Failed to create booking", 1, false⟩

end Parkit

namespace Parkit

/-- **C1.** For every `TimeSlot` with non-negative availability counts and
every `FeatureSelection`, the slot is selectable iff it is not in the past
and the availability sum relevant to the features — which is exactly
`getAvailableCountForFeatures` — is greater than zero. -/
theorem isSlotSelectable_iff_count_pos (slot : TimeSlot) (features : FeatureSelection)
    (hb : 0 ≤ slot.basicAvailable) (hc : 0 ≤ slot.coveredAvailable)
    (hg : 0 ≤ slot.chargingAvailable) (hcc : 0 ≤ slot.coveredAndChargingAvailable) :
    isSlotSelectable slot features = true ↔
      slot.isPast = false ∧ 0 < getAvailableCountForFeatures features slot := by
  obtain ⟨cov, chg⟩ := features
  cases cov <;> cases chg <;>
    simp [isSlotSelectable, isFeatureAvailable, getAvailableCountForFeatures] <;>
    cases slot.isPast <;> simp <;> omega

/-- Witness for C1: a slot with `covered = 2`, `coveredAndCharging = 1`,
`basic = 0`, `charging = 0` is selectable under `{covered := true}`. -/
theorem isSlotSelectable_iff_count_pos_witness :
    isSlotSelectable
        ⟨"", "", 9, "", 3, 4, true, false, 0, 2, 0, 1⟩
        ⟨true, false⟩ = true ↔
      (false : Bool) = false ∧
        0 < getAvailableCountForFeatures ⟨true, false⟩
          ⟨"", "", 9, "", 3, 4, true, false, 0, 2, 0, 1⟩ :=
  isSlotSelectable_iff_count_pos
    ⟨"", "", 9, "", 3, 4, true, false, 0, 2, 0, 1⟩ ⟨true, false⟩
    (by decide) (by decide) (by decide) (by decide)

/-- **C2.** `calculateTotalPrice` is the number of selected hours times the
hourly rate (base rate plus the surcharge of each selected feature), hence
linear in the selection size; in particular rates `{5, 2, 3}` with both
features and three selected hours give `3 × (5 + 2 + 3) = 30`. -/
theorem calculateTotalPrice_linear :
    (∀ (sel : List Int) (f : FeatureSelection) (p : PricingInfo),
      calculateTotalPrice sel f p =
        (sel.length : ℚ) *
          (p.hourlyRate + (if f.covered then p.coveredHourlyRate else 0) +
            (if f.charging then p.chargingHourlyRate else 0)) ∧
      calculateTotalPrice sel f p = (sel.length : ℚ) * getHourlyRate f p) ∧
    calculateTotalPrice [9, 10, 11] ⟨true, true⟩ ⟨5, 0, 2, 0, 3, 0⟩ = 30 := by
  refine ⟨fun sel f p => ⟨rfl, ?_⟩, by norm_num [calculateTotalPrice]⟩
  obtain ⟨cov, chg⟩ := f
  cases cov <;> cases chg <;> simp [calculateTotalPrice, getHourlyRate]

lemma contains_eq_decide_mem {α : Type} [BEq α] [LawfulBEq α] [DecidableEq α]
    (l : List α) (a : α) : l.contains a = decide (a ∈ l) := by
  by_cases h : a ∈ l <;> simp [h]

lemma toggleHour_of_mem {l : List Int} {hour : Int} (h : hour ∈ l) :
    toggleHour l hour = l.filter (fun x => x != hour) := by
  simp [toggleHour, contains_eq_decide_mem, h]

lemma toggleHour_of_not_mem {l : List Int} {hour : Int} (h : hour ∉ l) :
    toggleHour l hour = List.insertionSort (· ≤ ·) (l ++ [hour]) := by
  simp [toggleHour, contains_eq_decide_mem, h]

lemma sorted_lt_of_le_nodup {l : List Int}
    (hle : List.Sorted (· ≤ ·) l) (hnd : l.Nodup) : List.Sorted (· < ·) l :=
  (hle.and hnd).imp fun hab => lt_of_le_of_ne hab.1 hab.2

lemma le_getLastD_of_sorted (t : List Int) :
    ∀ a : Int, List.Sorted (· ≤ ·) (a :: t) → ∀ x ∈ a :: t, x ≤ t.getLastD a := by
  induction t with
  | nil =>
    intro a _ x hx
    simp only [List.mem_singleton] at hx
    simp [hx]
  | cons b t ih =>
    intro a hs x hx
    rw [List.getLastD_cons]
    have hs' := List.sorted_cons.mp hs
    rcases List.mem_cons.mp hx with rfl | hx'
    · exact le_trans (hs'.1 b (by simp)) (ih b hs'.2 b (by simp))
    · exact ih b hs'.2 x hx'

/-- **C3.** For every non-empty selection, `handleSubmit` builds a single
contiguous interval from `min(selection)` to `max(selection) + 1`,
regardless of gaps in the selection; in particular selection
`{9, 10, 11}` gives start hour 9 and end hour 12. -/
theorem buildBookingInterval_min_max (sel : List Int) (hne : sel ≠ []) :
    (∃ a b, buildBookingInterval sel = some (a, b) ∧
      a ∈ sel ∧ (∀ x ∈ sel, a ≤ x) ∧
      (b - 1) ∈ sel ∧ (∀ x ∈ sel, x ≤ b - 1)) ∧
    buildBookingInterval [9, 10, 11] = some (9, 12) := by
  refine ⟨?_, by decide⟩
  have hperm := List.perm_insertionSort (· ≤ ·) sel
  have hsort := List.sorted_insertionSort (· ≤ ·) sel
  rcases hs : List.insertionSort (· ≤ ·) sel with _ | ⟨h, t⟩
  · rw [hs] at hperm
    exact absurd (hperm.symm.eq_nil) hne
  · rw [hs] at hperm hsort
    refine ⟨h, t.getLastD h + 1, by simp [buildBookingInterval, hs], ?_, ?_, ?_, ?_⟩
    · exact hperm.subset (List.mem_cons_self h t)
    · intro x hx
      rcases List.mem_cons.mp (hperm.mem_iff.mpr hx) with rfl | hx'
      · exact le_refl x
      · exact (List.sorted_cons.mp hsort).1 x hx'
    · have he : t.getLastD h + 1 - 1 = t.getLastD h := by ring
      rw [he]
      exact hperm.subset (List.getLastD_mem_cons t h)
    · intro x hx
      have he : t.getLastD h + 1 - 1 = t.getLastD h := by ring
      rw [he]
      exact le_getLastD_of_sorted t h hsort x (hperm.mem_iff.mpr hx)

/-- Witness for C3: the selection `[9, 17]` is non-empty, and the round
trip example holds. -/
theorem buildBookingInterval_min_max_witness :
    ([9, 17] : List Int) ≠ [] ∧ buildBookingInterval [9, 10, 11] = some (9, 12) :=
  ⟨by decide, (buildBookingInterval_min_max [9, 17] (by decide)).2⟩

/-- **C9.** The `setSelectedSlots` updater of `handleSlotClick` preserves
the strictly-ascending (sorted, duplicate-free) selection invariant:
toggling an absent hour adds it and re-sorts, toggling a present hour
removes it, and the result need not be contiguous (e.g. toggling 17 into
`[9, 10]` gives `[9, 10, 17]`). -/
theorem toggleHour_invariant (prev : List Int) (hour : Int)
    (hs : List.Sorted (· < ·) prev) :
    List.Sorted (· < ·) (toggleHour prev hour) ∧
    (hour ∈ prev → ∀ x, x ∈ toggleHour prev hour ↔ x ∈ prev ∧ x ≠ hour) ∧
    (hour ∉ prev → ∀ x, x ∈ toggleHour prev hour ↔ x ∈ prev ∨ x = hour) ∧
    toggleHour [9, 10] 17 = [9, 10, 17] := by
  by_cases hm : hour ∈ prev
  · refine ⟨?_, fun _ x => ?_, fun hcon => absurd hm hcon, by decide⟩
    · rw [toggleHour_of_mem hm]; exact hs.filter _
    · rw [toggleHour_of_mem hm]; simp [List.mem_filter]
  · have hperm := List.perm_insertionSort (· ≤ ·) (prev ++ [hour])
    refine ⟨?_, fun hcon => absurd hcon hm, fun _ x => ?_, by decide⟩
    · rw [toggleHour_of_not_mem hm]
      refine sorted_lt_of_le_nodup (List.sorted_insertionSort _ _) ?_
      rw [hperm.nodup_iff]
      simp [List.nodup_append, hs.nodup, hm]
    · rw [toggleHour_of_not_mem hm, hperm.mem_iff]
      simp [or_comm]

/-- Witness for C9: the sorted selection `[9, 11]` stays sorted and gains
membership of 10 after toggling the absent hour 10. -/
theorem toggleHour_invariant_witness :
    List.Sorted (· < ·) ([9, 11] : List Int) ∧
    List.Sorted (· < ·) (toggleHour [9, 11] 10) :=
  ⟨by decide, (toggleHour_invariant [9, 11] 10 (by decide)).1⟩

lemma toggleHour_toggleHour (prev : List Int) (hour : Int)
    (hs : List.Sorted (· < ·) prev) :
    toggleHour (toggleHour prev hour) hour = prev := by
  have hsle : List.Sorted (· ≤ ·) prev := hs.imp le_of_lt
  have hnd : prev.Nodup := hs.nodup
  by_cases hm : hour ∈ prev
  · have ht1 : toggleHour prev hour = prev.erase hour := by
      rw [hnd.erase_eq_filter hour]
      exact toggleHour_of_mem hm
    have hm1 : hour ∉ toggleHour prev hour := by
      rw [ht1]; exact hnd.not_mem_erase
    rw [toggleHour_of_not_mem hm1, ht1]
    refine List.eq_of_perm_of_sorted ?_ (List.sorted_insertionSort _ _) hsle
    exact (List.perm_insertionSort _ _).trans
      ((List.perm_append_singleton _ _).trans (List.perm_cons_erase hm).symm)
  · have hperm := List.perm_insertionSort (· ≤ ·) (prev ++ [hour])
    have hm1 : hour ∈ toggleHour prev hour := by
      rw [toggleHour_of_not_mem hm, hperm.mem_iff]; simp
    rw [toggleHour_of_mem hm1, toggleHour_of_not_mem hm]
    refine List.eq_of_perm_of_sorted ?_
      ((List.sorted_insertionSort _ _).filter _) hsle
    have h2 : (prev ++ [hour]).filter (fun x => x != hour) = prev := by
      rw [List.filter_append]
      simp only [List.filter_cons, bne_self_eq_false, List.filter_nil]
      rw [List.filter_eq_self.mpr ?_]
      · simp
      · intro a ha
        exact bne_iff_ne.mpr fun he => hm (by rw [← he]; exact ha)
    exact (hperm.filter _).trans (by rw [h2])

/-- **C10.** Toggling a selectable hour twice returns the selection to its
original value, for every selection satisfying the sorted invariant; and a
click on a non-selectable hour (missing slot, past, or feature-unavailable)
leaves the selection unchanged. -/
theorem handleSlotClick_double_toggle (ts : List TimeSlot) (f : FeatureSelection)
    (prev : List Int) (hour : Int) (hs : List.Sorted (· < ·) prev) :
    (isHourSelectable ts f hour = true →
      handleSlotClick ts f (handleSlotClick ts f prev hour) hour = prev) ∧
    (isHourSelectable ts f hour = false →
      handleSlotClick ts f prev hour = prev) := by
  cases hfind : ts.find? (fun s => s.hour == hour) with
  | none => exact ⟨fun _ => by simp [handleSlotClick, hfind],
      fun _ => by simp [handleSlotClick, hfind]⟩
  | some slot =>
    by_cases hp : slot.isPast
    · exact ⟨fun hsel => by simp [isHourSelectable, hfind, hp] at hsel,
        fun _ => by simp [handleSlotClick, hfind, hp]⟩
    · by_cases hav : isFeatureAvailable f slot = true
      · refine ⟨fun _ => ?_, fun hsel => by
          simp [isHourSelectable, hfind, hp, hav] at hsel⟩
        have hstep : ∀ sel, handleSlotClick ts f sel hour = toggleHour sel hour := by
          intro sel
          simp [handleSlotClick, hfind, hp, hav]
        rw [hstep, hstep]
        exact toggleHour_toggleHour prev hour hs
      · exact ⟨fun hsel => by simp [isHourSelectable, hfind, hp, hav] at hsel,
          fun _ => by simp [handleSlotClick, hfind, hav]⟩

/-- Witness for C10: hour 9 of `sampleSlots` is selectable under no
features, the empty selection is sorted, and toggling hour 9 twice from
the empty selection gives back the empty selection. -/
theorem handleSlotClick_double_toggle_witness :
    isHourSelectable sampleSlots ⟨false, false⟩ 9 = true ∧
    handleSlotClick sampleSlots ⟨false, false⟩
      (handleSlotClick sampleSlots ⟨false, false⟩ [] 9) 9 = [] :=
  ⟨by decide, (handleSlotClick_double_toggle sampleSlots ⟨false, false⟩ [] 9
    (by decide)).1 (by decide)⟩

lemma runBounds_of_chain (es : List (Nat × GeoRegion)) :
    ∀ (t : Nat) (r : GeoRegion) (I : List GeoRegion),
      List.Chain' (fun a b => a.1 ≤ b.1 ∧ b.1 < a.1 + 500) ((t, r) :: es) →
      runBounds es ⟨some (t + 500, r), I⟩ =
        ⟨some ((es.getLastD (t, r)).1 + 500, (es.getLastD (t, r)).2), I⟩ := by
  induction es with
  | nil => intro t r I _; rfl
  | cons e es ih =>
    obtain ⟨t2, r2⟩ := e
    intro t r I hch
    obtain ⟨⟨h1, h2⟩, hch'⟩ := List.chain'_cons.mp hch
    have hstep : handleBoundsChange t2 r2 ⟨some (t + 500, r), I⟩ =
        ⟨some (t2 + 500, r2), I⟩ := by
      have hlt : ¬ (t + 500 ≤ t2) := by omega
      simp [handleBoundsChange, fireIfDue, hlt]
    have hrun : runBounds ((t2, r2) :: es) ⟨some (t + 500, r), I⟩ =
        runBounds es (handleBoundsChange t2 r2 ⟨some (t + 500, r), I⟩) := rfl
    rw [hrun, hstep, ih t2 r2 I hch', List.getLastD_cons]

/-- **C5.** Any run of `handleBoundsChange` invocations in which each
invocation arrives before the previous one's 500 ms delay elapses issues
exactly one outbound nearby query, computed from the region of the last
invocation; and every such invocation cancels the previously scheduled
callback and restarts the 500 ms timer for its own region. -/
theorem handleBoundsChange_debounce (e : Nat × GeoRegion) (es : List (Nat × GeoRegion))
    (hch : List.Chain' (fun a b => a.1 ≤ b.1 ∧ b.1 < a.1 + 500) (e :: es)) :
    (flushDebounce (runBounds (e :: es) idleDebounce)).issued = [(es.getLastD e).2] ∧
    (∀ (t ft : Nat) (r pr : GeoRegion) (I : List GeoRegion), t < ft →
      handleBoundsChange t r ⟨some (ft, pr), I⟩ = ⟨some (t + 500, r), I⟩) := by
  constructor
  · obtain ⟨t, r⟩ := e
    have hfirst : runBounds ((t, r) :: es) idleDebounce =
        runBounds es ⟨some (t + 500, r), []⟩ := rfl
    rw [hfirst, runBounds_of_chain es t r [] hch]
    rfl
  · intro t ft r pr I hlt
    have h : ¬ (ft ≤ t) := by omega
    simp [handleBoundsChange, fireIfDue, h]

/-- Witness for C5: three invocations at times 0, 100, 200 (each within
500 ms of the previous) issue exactly the single query for the region of
the third invocation. -/
theorem handleBoundsChange_debounce_witness :
    (flushDebounce (runBounds
        [(0, ⟨1, 1, 0, 0⟩), (100, ⟨2, 2, 1, 1⟩), (200, ⟨3, 3, 2, 2⟩)]
        idleDebounce)).issued = [⟨3, 3, 2, 2⟩] :=
  (handleBoundsChange_debounce (0, ⟨1, 1, 0, 0⟩)
    [(100, ⟨2, 2, 1, 1⟩), (200, ⟨3, 3, 2, 2⟩)]
    (List.chain'_cons.mpr ⟨⟨by norm_num, by norm_num⟩,
      List.chain'_cons.mpr ⟨⟨by norm_num, by norm_num⟩,
        List.chain'_singleton _⟩⟩)).1

lemma resolveFetch_aborted (id : Nat) (data : List Nat) (s : FetchState) :
    (resolveFetch id data s).aborted = s.aborted := by
  simp only [resolveFetch]
  split <;> rfl

lemma resolveFetch_of_mem {id : Nat} {s : FetchState} (h : id ∈ s.aborted)
    (data : List Nat) : resolveFetch id data s = s := by
  simp [resolveFetch, h]

lemma resolveFetch_of_not_mem {id : Nat} {s : FetchState} (h : id ∉ s.aborted)
    (data : List Nat) : resolveFetch id data s = { s with places := some data } := by
  simp [resolveFetch, h]

lemma fetchInv_aborted_lt {s : FetchState} (h : fetchInvariantHolds s = true) :
    ∀ i ∈ s.aborted, i < s.nextId := by
  simp only [fetchInvariantHolds, Bool.and_eq_true, List.all_eq_true,
    decide_eq_true_eq] at h
  exact h.1

lemma issueFetch_aborted_le {s : FetchState} (h : fetchInvariantHolds s = true) :
    ∀ i ∈ (issueFetch s).aborted, i < s.nextId + 1 := by
  intro i hi
  cases hc : s.current with
  | none =>
    simp only [issueFetch, hc] at hi
    exact Nat.lt_succ_of_lt (fetchInv_aborted_lt h i hi)
  | some c =>
    simp only [issueFetch, hc, List.mem_cons] at hi
    rcases hi with rfl | hi
    · simp only [fetchInvariantHolds, Bool.and_eq_true, hc, decide_eq_true_eq] at h
      exact Nat.lt_succ_of_lt h.2
    · exact Nat.lt_succ_of_lt (fetchInv_aborted_lt h i hi)

/-- **C4.** Issuing nearby query B while query A is in flight aborts A at
the moment B is issued; A's resolution, arriving after B's or before it,
never overwrites the places set by B and is a state no-op; and A's
outcome is classified as a cancellation (silently ignored) while B's
would be a genuine failure. -/
theorem fetchNearbyPlaces_cancellation (s : FetchState) (dA dB : List Nat)
    (hinv : fetchInvariantHolds s = true) :
    s.nextId ∈ (issueFetch (issueFetch s)).aborted ∧
    resolveFetch s.nextId dA (resolveFetch (s.nextId + 1) dB (issueFetch (issueFetch s))) =
      resolveFetch (s.nextId + 1) dB (issueFetch (issueFetch s)) ∧
    (resolveFetch s.nextId dA
      (resolveFetch (s.nextId + 1) dB (issueFetch (issueFetch s)))).places = some dB ∧
    (resolveFetch (s.nextId + 1) dB
      (resolveFetch s.nextId dA (issueFetch (issueFetch s)))).places = some dB ∧
    isCancelledFetch (issueFetch (issueFetch s)) s.nextId = true ∧
    isCancelledFetch (issueFetch (issueFetch s)) (s.nextId + 1) = false := by
  have hcur : (issueFetch s).current = some s.nextId := rfl
  have habort : (issueFetch (issueFetch s)).aborted = s.nextId :: (issueFetch s).aborted := by
    simp [issueFetch]
  have hA : s.nextId ∈ (issueFetch (issueFetch s)).aborted := by
    rw [habort]; exact List.mem_cons_self _ _
  have hB : s.nextId + 1 ∉ (issueFetch (issueFetch s)).aborted := by
    rw [habort]
    intro hmem
    rcases List.mem_cons.mp hmem with he | hmem'
    · omega
    · exact absurd (issueFetch_aborted_le hinv _ hmem') (by omega)
  have hresB : resolveFetch (s.nextId + 1) dB (issueFetch (issueFetch s)) =
      { issueFetch (issueFetch s) with places := some dB } :=
    resolveFetch_of_not_mem hB dB
  have hmemA : s.nextId ∈ (resolveFetch (s.nextId + 1) dB
      (issueFetch (issueFetch s))).aborted := by
    rw [resolveFetch_aborted]; exact hA
  have hresA : resolveFetch s.nextId dA (resolveFetch (s.nextId + 1) dB
      (issueFetch (issueFetch s))) = resolveFetch (s.nextId + 1) dB
      (issueFetch (issueFetch s)) :=
    resolveFetch_of_mem hmemA dA
  refine ⟨hA, hresA, ?_, ?_, ?_, ?_⟩
  · rw [hresA, hresB]
  · rw [resolveFetch_of_mem hA dA, hresB]
  · simp [isCancelledFetch, hA]
  · simp [isCancelledFetch, hB]

/-- Witness for C4: from the initial state, issuing query 0 then query 1
and letting them resolve in either order leaves the places of query 1. -/
theorem fetchNearbyPlaces_cancellation_witness :
    fetchInvariantHolds initialFetchState = true ∧
    (resolveFetch 0 [7] (resolveFetch 1 [8]
      (issueFetch (issueFetch initialFetchState)))).places = some [8] :=
  ⟨by decide, (fetchNearbyPlaces_cancellation initialFetchState [7] [8] (by decide)).2.2.1⟩

/-- **C6.** On a render, a marker is marked as new (given the entrance
animation) iff its identifier is absent from the previous result set's
identifiers; consequently, when the new result set's identifiers are a
subset of the previous set's, zero markers are marked as new. -/
theorem mapView_marker_animation (prev cur : List String) :
    (∀ id, isNewMarker prev cur id = true ↔ id ∈ cur ∧ id ∉ prev) ∧
    (cur ⊆ prev → newMarkerIds prev cur = []) := by
  constructor
  · intro id
    simp [isNewMarker, newMarkerIds, contains_eq_decide_mem, List.mem_filter]
  · intro hsub
    simp only [newMarkerIds, List.filter_eq_nil_iff]
    intro id hid
    simp [contains_eq_decide_mem, hsub hid]

/-- Witness for C6: re-querying a region whose result `["b"]` is a subset
of the previous result `["a", "b"]` marks zero markers as new. -/
theorem mapView_marker_animation_witness :
    (["b"] : List String) ⊆ ["a", "b"] ∧ newMarkerIds ["a", "b"] ["b"] = [] := by
  have hsub : (["b"] : List String) ⊆ ["a", "b"] := by
    intro x hx
    simp only [List.mem_singleton] at hx
    simp [hx]
  exact ⟨hsub, (mapView_marker_animation ["a", "b"] ["b"]).2 hsub⟩

/-- **C7 counterexample.** Changing the date does not reset the hour
selection before the new slots load: right after the date change, while
the slots are still loading, the stale selection `[9]` is still there. -/
theorem changeDate_keeps_stale_selection :
    (modalStep (.changeDate "2025-01-02") sampleModalState).loadingSlots = true ∧
    (modalStep (.changeDate "2025-01-02") sampleModalState).selectedSlots = [9] :=
  ⟨rfl, rfl⟩

/-- **C7 (amended).** Changing either feature resets the hour selection to
empty immediately; changing the date starts the reload and the selection
is reset in the same update that stores the newly fetched slots, so new
slots never coexist with a stale selection; a failed reload keeps the old
slots and selection and surfaces an error message. -/
theorem modalStep_selection_reset (s : ModalState) (d : String) (b : Bool)
    (slots : List TimeSlot) :
    (modalStep (.setCovered b) s).selectedSlots = [] ∧
    (modalStep (.setCharging b) s).selectedSlots = [] ∧
    (modalStep (.slotsLoaded slots) (modalStep (.changeDate d) s)).selectedSlots = [] ∧
    (modalStep (.slotsLoaded slots) (modalStep (.changeDate d) s)).timeSlots = slots ∧
    (modalStep (.changeDate d) s).loadingSlots = true ∧
    (modalStep .slotsFailed (modalStep (.changeDate d) s)).selectedSlots =
      s.selectedSlots ∧
    (modalStep .slotsFailed (modalStep (.changeDate d) s)).error =
      "Failed to load available time slots" :=
  ⟨rfl, rfl, rfl, rfl, rfl, rfl, rfl⟩

/-- **C8.** A submission with no vehicle or an empty selection is blocked
locally with its user-facing message and zero network requests; at most
one request is ever made (no auto-retry); and on a failed request the
structured backend error body is surfaced verbatim when it is a non-empty
string, otherwise the generic failure message is shown. -/
theorem submitBooking_failure_semantics (vid : String) (slots : List Int)
    (tok : Bool) (net : BookingNetResult) :
    (vid = "" → submitBooking vid slots tok net =
      ⟨"Please select a vehicle", 0, false⟩) ∧
    (vid ≠ "" → slots = [] → submitBooking vid slots tok net =
      ⟨"Please select at least one time slot", 0, false⟩) ∧
    (submitBooking vid slots tok net).requestsMade ≤ 1 ∧
    (∀ body, vid ≠ "" → slots ≠ [] → tok = true → body ≠ "" →
      submitBooking vid slots tok (.failedWith (some body)) = ⟨body, 1, false⟩) ∧
    (vid ≠ "" → slots ≠ [] → tok = true →
      submitBooking vid slots tok (.failedWith none) =
        ⟨"Failed to create booking", 1, false⟩) := by
  refine ⟨fun hv => by simp [submitBooking, hv], fun hv hsl => ?_, ?_, ?_, ?_⟩
  · simp [submitBooking, hv, hsl]
  · by_cases hv : vid = ""
    · simp [submitBooking, hv]
    · by_cases hsl : slots.length = 0
      · simp [submitBooking, hv, hsl]
      · by_cases ht : tok
        · cases net with
          | created => simp [submitBooking, hv, hsl, ht]
          | failedWith body =>
            cases body with
            | none => simp [submitBooking, hv, hsl, ht]
            | some b =>
              by_cases hb : b = "" <;> simp [submitBooking, hv, hsl, ht, hb]
        · simp [submitBooking, hv, hsl, ht]
  · intro body hv hsl ht hb
    have hlen : ¬ slots.length = 0 := by simpa [List.length_eq_zero] using hsl
    simp [submitBooking, hv, hlen, ht, hb]
  · intro hv hsl ht
    have hlen : ¬ slots.length = 0 := by simpa [List.length_eq_zero] using hsl
    simp [submitBooking, hv, hlen, ht]

/-- Witness for C8: an empty vehicle id is blocked locally with the
vehicle message and no network request. -/
theorem submitBooking_failure_semantics_witness :
    ("" : String) = "" ∧
    submitBooking "" [] false (.failedWith none) =
      ⟨"Please select a vehicle", 0, false⟩ :=
  ⟨rfl, (submitBooking_failure_semantics "" [] false (.failedWith none)).1 rfl⟩

end Parkit
